import Mathlib

/-!
Verification of the `journey` personality-model training repository.

This file shallow-embeds the parts of the source needed by the frozen claim
list: the soft-target synthesis (`src/dataset.py`), the dataset disk cache
with its MD5 token hash (`src/dataset.py`), the model parameter-freezing
logic and numeric forward pass (`src/model.py`), the Core ML export
environment validation and metadata round-trip (`src/export.py`), and the
cache-hit truncation in `PersonalityDataset.__init__`.

Real-valued tensor code is embedded over `ℝ` (so `exp`, `sqrt` are the
mathematical functions); tensors are total functions out of `Fin` types,
matching the fixed shapes used by the source.  Discrete code (hashing,
JSON serialization, caching, string handling) is embedded executably.

The file is organised as: all definitions first, then all theorems.
-/

/- ═══════════════════════ Section A: soft-target synthesis ═══════════════════
`compute_soft_targets` in `src/dataset.py`:
```
similarities = text_embeddings @ token_embeddings.T
scaled = similarities / temperature
targets = torch.softmax(scaled, dim=-1)
```
A row of `text_embeddings` is a function `Fin d → ℝ`; the matrix is
`Fin n → Fin d → ℝ`.  `torch.softmax(z, dim=-1)` on row `z` is
`fun j => exp (z j) / ∑ jp, exp (z jp)`. -/

/-- Embedding of `compute_soft_targets(text_embeddings, token_embeddings, temperature)`.
`n` = number of samples, `v` = vocabulary size (325 in the source), `d` =
embedding dimension (1536 in the source).  The function performs no
validation of `temperature`, exactly as the source does. -/
noncomputable def compute_soft_targets {n v d : ℕ}
    (text_embeddings : Fin n → Fin d → ℝ)
    (token_embeddings : Fin v → Fin d → ℝ)
    (temperature : ℝ) : Fin n → Fin v → ℝ :=
  let similarities : Fin n → Fin v → ℝ :=
    fun i j => ∑ k, text_embeddings i k * token_embeddings j k
  let scaled : Fin n → Fin v → ℝ := fun i j => similarities i j / temperature
  fun i j => Real.exp (scaled i j) / ∑ jp, Real.exp (scaled i jp)

/-- Maximum entry of a (nonempty) row, as used by the per-row max-mass claim. -/
noncomputable def rowMax {v : ℕ} [NeZero v] (row : Fin v → ℝ) : ℝ :=
  Finset.univ.sup' Finset.univ_nonempty row

/- ══════════════ Section B: token hash and the dataset disk cache ════════════
`_token_hash` in `src/dataset.py`:
```
token_str = json.dumps(TOKENS, sort_keys=False).encode()
return hashlib.md5(token_str).hexdigest()[:8]
```
We embed Python's `json.dumps` for a list of strings (default
`ensure_ascii=True`, separator `", "`), UTF-8 `str.encode`, and the full
MD5 algorithm (RFC 1321) over byte lists (bytes are `ℕ` values `< 256`).

The cache directory (`embeddings.pt`, `targets.pt`, `metadata.json`) is a
`CacheState` whose three fields are `Option`s (`none` = file absent).
`_save_cache` performs its three writes in source order (embeddings,
targets, metadata); `saveAfterSteps k` models a crash after the first `k`
writes.  The fixed global token list `TOKENS` is passed explicitly. -/

def VOCAB_SIZE : ℕ := 325

/-- Lowercase hexadecimal digit, as used by Python's `%x` / `hexdigest`. -/
def hexDigitChar (n : ℕ) : Char :=
  if n < 10 then Char.ofNat (48 + n) else Char.ofNat (87 + n)

/-- Four hex digits of a 16-bit value, most significant first (`\uXXXX`). -/
def u16HexChars (n : ℕ) : List Char :=
  [hexDigitChar (n / 4096 % 16), hexDigitChar (n / 256 % 16),
   hexDigitChar (n / 16 % 16), hexDigitChar (n % 16)]

/-- Python `json.dumps` escaping of one character (`ensure_ascii=True`):
shortcuts for the two JSON specials and the five control shortcuts,
printable ASCII kept verbatim, everything else as `\uXXXX` (UTF-16
surrogate pairs above the BMP). -/
def jsonEscapeChar (c : Char) : List Char :=
  if c = '"' then ['\\', '"']
  else if c = '\\' then ['\\', '\\']
  else if c = '\x08' then ['\\', 'b']
  else if c = '\x0c' then ['\\', 'f']
  else if c = '\n' then ['\\', 'n']
  else if c = '\r' then ['\\', 'r']
  else if c = '\t' then ['\\', 't']
  else if 32 ≤ c.toNat ∧ c.toNat ≤ 126 then [c]
  else if c.toNat < 65536 then '\\' :: 'u' :: u16HexChars c.toNat
  else
    ('\\' :: 'u' :: u16HexChars (55296 + (c.toNat - 65536) / 1024)) ++
      ('\\' :: 'u' :: u16HexChars (56320 + (c.toNat - 65536) % 1024))

/-- A JSON string literal: `"` + escaped characters + `"`. -/
def jsonStringChars (s : String) : List Char :=
  '"' :: s.data.flatMap jsonEscapeChar ++ ['"']

/-- Join with a separator (Python `", ".join`-style over char lists). -/
def intercalateSep (sep : List Char) : List (List Char) → List Char
  | [] => []
  | [l] => l
  | l :: l2 :: ls => l ++ sep ++ intercalateSep sep (l2 :: ls)

/-- `json.dumps(tokens)` for a list of strings: `[` + `", "`-joined string
literals + `]`. -/
def jsonDumpsTokens (tokens : List String) : List Char :=
  '[' :: intercalateSep [',', ' '] (tokens.map jsonStringChars) ++ [']']

/-- UTF-8 encoding of one unicode scalar value (Python `str.encode()`). -/
def utf8EncodeChar (c : Char) : List ℕ :=
  let n := c.toNat
  if n < 128 then [n]
  else if n < 2048 then [192 + n / 64, 128 + n % 64]
  else if n < 65536 then [224 + n / 4096, 128 + n / 64 % 64, 128 + n % 64]
  else [240 + n / 262144, 128 + n / 4096 % 64, 128 + n / 64 % 64, 128 + n % 64]

/-- UTF-8 encoding of a character sequence. -/
def utf8Encode (cs : List Char) : List ℕ := cs.flatMap utf8EncodeChar

/-- MD5 per-round additive constants `K[0..63]` (RFC 1321):
`K[i] = floor(2^32 * abs(sin(i + 1)))`. -/
def md5K : List ℕ :=
  [3614090360, 3905402710, 606105819, 3250441966, 4118548399, 1200080426,
   2821735955, 4249261313, 1770035416, 2336552879, 4294925233, 2304563134,
   1804603682, 4254626195, 2792965006, 1236535329, 4129170786, 3225465664,
   643717713, 3921069994, 3593408605, 38016083, 3634488961, 3889429448,
   568446438, 3275163606, 4107603335, 1163531501, 2850285829, 4243563512,
   1735328473, 2368359562, 4294588738, 2272392833, 1839030562, 4259657740,
   2763975236, 1272893353, 4139469664, 3200236656, 681279174, 3936430074,
   3572445317, 76029189, 3654602809, 3873151461, 530742520, 3299628645,
   4096336452, 1126891415, 2878612391, 4237533241, 1700485571, 2399980690,
   4293915773, 2240044497, 1873313359, 4264355552, 2734768916, 1309151649,
   4149444226, 3174756917, 718787259, 3951481745]

/-- MD5 per-round left-rotation amounts `s[0..63]` (RFC 1321). -/
def md5S : List ℕ :=
  [7, 12, 17, 22, 7, 12, 17, 22, 7, 12, 17, 22, 7, 12, 17, 22,
   5, 9, 14, 20, 5, 9, 14, 20, 5, 9, 14, 20, 5, 9, 14, 20,
   4, 11, 16, 23, 4, 11, 16, 23, 4, 11, 16, 23, 4, 11, 16, 23,
   6, 10, 15, 21, 6, 10, 15, 21, 6, 10, 15, 21, 6, 10, 15, 21]

/-- Truncation to a 32-bit word. -/
def w32 (n : ℕ) : ℕ := n % 4294967296

/-- 32-bit left rotation. -/
def rotl32 (x c : ℕ) : ℕ := w32 ((x <<< c) ||| (x >>> (32 - c)))

/-- 32-bit bitwise complement. -/
def not32 (x : ℕ) : ℕ := 4294967295 ^^^ x

/-- The eight little-endian bytes of a 64-bit value (message bit length). -/
def le64Bytes (n : ℕ) : List ℕ :=
  [n % 256, n / 256 % 256, n / 65536 % 256, n / 16777216 % 256,
   n / 4294967296 % 256, n / 1099511627776 % 256,
   n / 281474976710656 % 256, n / 72057594037927936 % 256]

/-- The four little-endian bytes of a 32-bit word. -/
def le32Bytes (n : ℕ) : List ℕ :=
  [n % 256, n / 256 % 256, n / 65536 % 256, n / 16777216 % 256]

/-- MD5 padding: append `0x80`, zero bytes to 56 mod 64, then the 64-bit
little-endian original length in bits. -/
def md5Pad (msg : List ℕ) : List ℕ :=
  msg ++ 128 :: List.replicate ((119 - msg.length % 64) % 64) 0 ++
    le64Bytes (8 * msg.length)

/-- Split a byte list into successive 64-byte chunks (structural recursion
on a fuel bound; each step consumes a nonempty list, so fuel `l.length`
always suffices). -/
def chunks64Go : ℕ → List ℕ → List (List ℕ)
  | _, [] => []
  | 0, _ :: _ => []
  | fuel + 1, x :: xs =>
      (x :: xs).take 64 :: chunks64Go fuel ((x :: xs).drop 64)

/-- Split a byte list into successive 64-byte chunks. -/
def chunks64 (l : List ℕ) : List (List ℕ) := chunks64Go l.length l

/-- The `g`-th little-endian 32-bit word of a 64-byte chunk. -/
def chunkWord (chunk : List ℕ) (g : ℕ) : ℕ :=
  chunk.getD (4 * g) 0 + 256 * chunk.getD (4 * g + 1) 0 +
    65536 * chunk.getD (4 * g + 2) 0 + 16777216 * chunk.getD (4 * g + 3) 0

/-- MD5 round function `F` for round `i` (four 16-round phases). -/
def md5F (i b c d : ℕ) : ℕ :=
  if i < 16 then (b &&& c) ||| (not32 b &&& d)
  else if i < 32 then (d &&& b) ||| (not32 d &&& c)
  else if i < 48 then b ^^^ c ^^^ d
  else c ^^^ (b ||| not32 d)

/-- MD5 message-word index for round `i`. -/
def md5G (i : ℕ) : ℕ :=
  if i < 16 then i
  else if i < 32 then (5 * i + 1) % 16
  else if i < 48 then (3 * i + 5) % 16
  else (7 * i) % 16

/-- One MD5 round on state `(A, B, C, D)`. -/
def md5Round (chunk : List ℕ) (st : ℕ × ℕ × ℕ × ℕ) (i : ℕ) : ℕ × ℕ × ℕ × ℕ :=
  let f := w32 (md5F i st.2.1 st.2.2.1 st.2.2.2 + st.1 + md5K.getD i 0 +
    chunkWord chunk (md5G i))
  (st.2.2.2, w32 (st.2.1 + rotl32 f (md5S.getD i 0)), st.2.1, st.2.2.1)

/-- Process one 64-byte chunk: 64 rounds, then add into the running state. -/
def md5Chunk (st : ℕ × ℕ × ℕ × ℕ) (chunk : List ℕ) : ℕ × ℕ × ℕ × ℕ :=
  let r := (List.range 64).foldl (md5Round chunk) st
  (w32 (st.1 + r.1), w32 (st.2.1 + r.2.1), w32 (st.2.2.1 + r.2.2.1),
    w32 (st.2.2.2 + r.2.2.2))

/-- Final MD5 state of a byte message (initial state from RFC 1321). -/
def md5State (msg : List ℕ) : ℕ × ℕ × ℕ × ℕ :=
  (chunks64 (md5Pad msg)).foldl md5Chunk
    (1732584193, 4023233417, 2562383102, 271733878)

/-- The 16-byte MD5 digest: little-endian bytes of the four state words. -/
def md5DigestBytes (msg : List ℕ) : List ℕ :=
  le32Bytes (md5State msg).1 ++ le32Bytes (md5State msg).2.1 ++
    le32Bytes (md5State msg).2.2.1 ++ le32Bytes (md5State msg).2.2.2

/-- Two lowercase hex digits of a byte (`hexdigest`). -/
def byteHexChars (b : ℕ) : List Char :=
  [hexDigitChar (b / 16 % 16), hexDigitChar (b % 16)]

/-- The 32-character lowercase hex digest of a byte message. -/
def md5HexChars (msg : List ℕ) : List Char :=
  (md5DigestBytes msg).flatMap byteHexChars

/-- Embedding of `_token_hash`:
`hashlib.md5(json.dumps(TOKENS).encode()).hexdigest()[:8]`. -/
def _token_hash (tokens : List String) : String :=
  String.mk ((md5HexChars (utf8Encode (jsonDumpsTokens tokens))).take 8)

/-- The first four digest bytes (the information content of the truncated
8-hex-character hash), packaged in a finite type. -/
def md5KeyBytes (msg : List ℕ) : Fin 256 × Fin 256 × Fin 256 × Fin 256 :=
  (⟨(md5State msg).1 % 256, Nat.mod_lt _ (by norm_num)⟩,
   ⟨(md5State msg).1 / 256 % 256, Nat.mod_lt _ (by norm_num)⟩,
   ⟨(md5State msg).1 / 65536 % 256, Nat.mod_lt _ (by norm_num)⟩,
   ⟨(md5State msg).1 / 16777216 % 256, Nat.mod_lt _ (by norm_num)⟩)

/-- Rebuild the truncated hex hash from the first four digest bytes. -/
def hashOfKey (k : Fin 256 × Fin 256 × Fin 256 × Fin 256) : String :=
  String.mk (byteHexChars k.1.val ++ byteHexChars k.2.1.val ++
    byteHexChars k.2.2.1.val ++ byteHexChars k.2.2.2.val)

/-- Contents of `metadata.json` as written by `_save_cache`. -/
structure CacheMetadata where
  model_name : String
  token_hash : String
  n_samples : ℕ
  vocab_size : ℕ
deriving DecidableEq

/-- The cache directory: each field `none` means the file is absent. -/
structure CacheState where
  metadata : Option CacheMetadata
  embeddings : Option (List (List ℝ))
  targets : Option (List (List ℝ))

/-- A cache directory with no files (fresh directory). -/
def emptyCache : CacheState := ⟨none, none, none⟩

/-- `torch.save(embeddings, cache_dir / "embeddings.pt")`. -/
def writeEmbeddingsFile (e : List (List ℝ)) (st : CacheState) : CacheState :=
  { st with embeddings := some e }

/-- `torch.save(targets, cache_dir / "targets.pt")`. -/
def writeTargetsFile (t : List (List ℝ)) (st : CacheState) : CacheState :=
  { st with targets := some t }

/-- `json.dump(meta, fh)` for
`meta = {model_name, token_hash, n_samples, vocab_size}`. -/
def writeMetadataFile (model_name : String) (tokens : List String)
    (e : List (List ℝ)) (st : CacheState) : CacheState :=
  { st with
    metadata := some ⟨model_name, _token_hash tokens, e.length, VOCAB_SIZE⟩ }

/-- The three file writes of `_save_cache`, in source order: embeddings,
then targets, then metadata. -/
def saveSteps (e t : List (List ℝ)) (model_name : String)
    (tokens : List String) : List (CacheState → CacheState) :=
  [writeEmbeddingsFile e, writeTargetsFile t,
   writeMetadataFile model_name tokens e]

/-- The cache directory after the first `k` writes of `_save_cache`
(modelling a crash once `k` of the three files are on disk). -/
def saveAfterSteps (k : ℕ) (cache : CacheState) (e t : List (List ℝ))
    (model_name : String) (tokens : List String) : CacheState :=
  ((saveSteps e t model_name tokens).take k).foldl (fun s f => f s) cache

/-- Embedding of `_save_cache` (all three writes completed). -/
def _save_cache (cache : CacheState) (e t : List (List ℝ))
    (model_name : String) (tokens : List String) : CacheState :=
  saveAfterSteps 3 cache e t model_name tokens

/-- Embedding of `_load_cache`: miss (`none`) when `metadata.json` is
absent, when the stored model name differs, when the stored token hash
differs from the hash of the current token list, or when a tensor file is
absent; otherwise the stored pair. -/
def _load_cache (cache : CacheState) (model_name : String)
    (tokens : List String) : Option (List (List ℝ) × List (List ℝ)) :=
  match cache.metadata with
  | none => none
  | some meta =>
    if meta.model_name ≠ model_name then none
    else if meta.token_hash ≠ _token_hash tokens then none
    else
      match cache.embeddings, cache.targets with
      | some e, some t => some (e, t)
      | _, _ => none

/-- Does a stored metadata record validate against the current model name
and token list?  (`true` exactly when `_load_cache` gets past its metadata
checks.) -/
def metadataMatches (m : Option CacheMetadata) (model_name : String)
    (tokens : List String) : Bool :=
  match m with
  | none => false
  | some meta =>
      meta.model_name == model_name && meta.token_hash == _token_hash tokens

/- ═══════════ Section C: parameter freezing (src/model.py, autograd view) ════
`PersonalityModel` registers, in order: `input_projection` (a `Linear`,
weight + bias), `encoder_layers` (each `SimpleEncoderLayer` holding
`norm1` (weight+bias), `attn.{q,k,v,out}_proj` (weight+bias each),
`norm2` (weight+bias) and the two `Linear`s of the FFN `Sequential` at
indices 0 and 3 (weight+bias each)), `projection` (a `Linear` with
`bias=False`, weight only) and the separate `output_bias` parameter.
This section models parameter identity and the `requires_grad` flags. -/

/-- The sixteen parameters of one `SimpleEncoderLayer`. -/
inductive EncParam
  | norm1_w | norm1_b
  | q_proj_w | q_proj_b | k_proj_w | k_proj_b | v_proj_w | v_proj_b
  | out_proj_w | out_proj_b
  | norm2_w | norm2_b
  | ffn0_w | ffn0_b | ffn3_w | ffn3_b
deriving DecidableEq

/-- Identity of one parameter of a `PersonalityModel`. -/
inductive ParamId
  | input_projection_w
  | input_projection_b
  | encoder (layer : ℕ) (p : EncParam)
  | projection_w
  | output_bias
deriving DecidableEq

/-- The parameter list of one encoder layer, in registration order. -/
def encLayerParams (i : ℕ) : List ParamId :=
  [.encoder i .norm1_w, .encoder i .norm1_b,
   .encoder i .q_proj_w, .encoder i .q_proj_b,
   .encoder i .k_proj_w, .encoder i .k_proj_b,
   .encoder i .v_proj_w, .encoder i .v_proj_b,
   .encoder i .out_proj_w, .encoder i .out_proj_b,
   .encoder i .norm2_w, .encoder i .norm2_b,
   .encoder i .ffn0_w, .encoder i .ffn0_b,
   .encoder i .ffn3_w, .encoder i .ffn3_b]

/-- `self.input_projection.parameters()` followed by
`self.encoder_layers.parameters()`: the parameters `freeze_backbone`
iterates over. -/
def backboneParams (numLayers : ℕ) : List ParamId :=
  [.input_projection_w, .input_projection_b] ++
    (List.range numLayers).flatMap encLayerParams

/-- The `requires_grad` state of a `PersonalityModel` with
`num_encoder_layers = numLayers`. -/
structure PersonalityModelState where
  numLayers : ℕ
  flags : ParamId → Bool

/-- A freshly constructed model: every torch parameter defaults to
`requires_grad = True`. -/
def PersonalityModelState.init (numLayers : ℕ) : PersonalityModelState :=
  ⟨numLayers, fun _ => true⟩

/-- `freeze_backbone()`: sets `requires_grad = False` on every parameter of
the input projection and of the encoder layers, leaving the rest alone. -/
def freeze_backbone (m : PersonalityModelState) : PersonalityModelState :=
  ⟨m.numLayers,
   fun id => if id ∈ backboneParams m.numLayers then false else m.flags id⟩

/-- `trainable_parameters()`: returns the two parameter groups
`{"params": self.projection.parameters(), "name": "projection_weight"}`
(the projection is `bias=False`, so its parameter list is just the weight)
and `{"params": [self.output_bias], "name": "output_bias"}`. -/
def trainable_parameters (_ : PersonalityModelState) :
    List (String × List ParamId) :=
  [("projection_weight", [.projection_w]), ("output_bias", [.output_bias])]

/- ═══════════ Section D: numeric forward pass (src/model.py) ═════════════════
`PersonalityModel.forward` on one sample: input projection, `unsqueeze(1)`
to a length-1 sequence, the encoder layers, `squeeze(1)`, then
`projection(h) + output_bias`.  The unsqueeze/squeeze pair is the identity
on the per-sample vector; with `seq_len = 1` the attention softmax is over
a single position.  `Dropout` layers are the identity (`model.eval()` /
inference mode).  Latent width is `H * hd` (`num_heads * head_dim`),
matching the reshape in `SimpleSelfAttention.forward`. -/

/-- `nn.Linear`: `x ↦ W x + b` on one sample. -/
noncomputable def linearMap {m n : ℕ} (w : Fin m → Fin n → ℝ) (b : Fin m → ℝ)
    (x : Fin n → ℝ) : Fin m → ℝ :=
  fun i => (∑ j, w i j * x j) + b i

/-- `nn.LayerNorm(dim)` on one sample: biased variance, default
`eps = 1e-5`, learnable elementwise affine `γ, β`. -/
noncomputable def layerNorm {n : ℕ} (γ β : Fin n → ℝ) (x : Fin n → ℝ) :
    Fin n → ℝ :=
  let μ := (∑ j, x j) / n
  let σsq := (∑ j, (x j - μ) ^ 2) / n
  fun i => (x i - μ) / Real.sqrt (σsq + 1e-5) * γ i + β i

/-- The Gauss error function, as used by `nn.GELU()` (exact variant). -/
noncomputable def erf (x : ℝ) : ℝ :=
  2 / Real.sqrt Real.pi * ∫ t in (0 : ℝ)..x, Real.exp (-t ^ 2)

/-- `nn.GELU()`: `0.5 * x * (1 + erf (x / sqrt 2))`. -/
noncomputable def gelu (x : ℝ) : ℝ :=
  0.5 * x * (1 + erf (x / Real.sqrt 2))

/-- Weights of one `SimpleSelfAttention` with `H` heads of width `hd`. -/
structure AttnWeights (H hd : ℕ) where
  q_proj_w : Fin (H * hd) → Fin (H * hd) → ℝ
  q_proj_b : Fin (H * hd) → ℝ
  k_proj_w : Fin (H * hd) → Fin (H * hd) → ℝ
  k_proj_b : Fin (H * hd) → ℝ
  v_proj_w : Fin (H * hd) → Fin (H * hd) → ℝ
  v_proj_b : Fin (H * hd) → ℝ
  out_proj_w : Fin (H * hd) → Fin (H * hd) → ℝ
  out_proj_b : Fin (H * hd) → ℝ

/-- Flat index of head `h`, coordinate `j` (the
`view(bsz, seq, heads, head_dim)` reshape). -/
def hdIdx {H hd : ℕ} (h : Fin H) (j : Fin hd) : Fin (H * hd) :=
  ⟨h.val * hd + j.val, by
    have h1 : h.val + 1 ≤ H := h.isLt
    have h2 : j.val < hd := j.isLt
    calc h.val * hd + j.val < h.val * hd + hd := by omega
      _ = (h.val + 1) * hd := by ring
      _ ≤ H * hd := Nat.mul_le_mul_right hd h1⟩

/-- Head of a flat latent index. -/
def headOf {H hd : ℕ} (i : Fin (H * hd)) : Fin H :=
  ⟨i.val / hd, by
    rcases Nat.eq_zero_or_pos hd with h0 | hpos
    · subst h0; exact absurd i.isLt (by simp)
    · exact (Nat.div_lt_iff_lt_mul hpos).mpr i.isLt⟩

/-- `SimpleSelfAttention.forward` specialised to the length-1 sequences
produced by `PersonalityModel.forward`: project to q, k, v, reshape into
heads, per-head scaled-dot-product softmax over the single position,
weighted value sum, reshape back, output projection.  (`attn_drop` and
`proj_drop` are the identity in eval mode.) -/
noncomputable def attnForward {H hd : ℕ} (w : AttnWeights H hd)
    (x : Fin (H * hd) → ℝ) : Fin (H * hd) → ℝ :=
  let q := linearMap w.q_proj_w w.q_proj_b x
  let k := linearMap w.k_proj_w w.k_proj_b x
  let v := linearMap w.v_proj_w w.v_proj_b x
  let scale : ℝ := (hd : ℝ) ^ (-(1 : ℝ) / 2)
  let score : Fin H → ℝ :=
    fun h => ∑ j, q (hdIdx h j) * scale * k (hdIdx h j)
  let attnW : Fin H → ℝ :=
    fun h => Real.exp (score h) / ∑ _p : Fin 1, Real.exp (score h)
  let out : Fin (H * hd) → ℝ := fun i => attnW (headOf i) * v i
  linearMap w.out_proj_w w.out_proj_b out

/-- Weights of one `SimpleEncoderLayer` (`F` = `ffn_dim`). -/
structure EncoderLayerWeights (H hd F : ℕ) where
  norm1_w : Fin (H * hd) → ℝ
  norm1_b : Fin (H * hd) → ℝ
  attn : AttnWeights H hd
  norm2_w : Fin (H * hd) → ℝ
  norm2_b : Fin (H * hd) → ℝ
  ffn0_w : Fin F → Fin (H * hd) → ℝ
  ffn0_b : Fin F → ℝ
  ffn3_w : Fin (H * hd) → Fin F → ℝ
  ffn3_b : Fin (H * hd) → ℝ

/-- `SimpleEncoderLayer.forward`: pre-norm attention with residual, then
pre-norm FFN (`Linear, GELU, Dropout, Linear, Dropout`) with residual. -/
noncomputable def encoderLayerForward {H hd F : ℕ}
    (w : EncoderLayerWeights H hd F) (x : Fin (H * hd) → ℝ) :
    Fin (H * hd) → ℝ :=
  let attn_out := attnForward w.attn (layerNorm w.norm1_w w.norm1_b x)
  let x1 := fun i => x i + attn_out i
  let h := layerNorm w.norm2_w w.norm2_b x1
  let f1 := linearMap w.ffn0_w w.ffn0_b h
  let f2 := linearMap w.ffn3_w w.ffn3_b (fun i => gelu (f1 i))
  fun i => x1 i + f2 i

/-- Weights of a whole `PersonalityModel` (`D` = `embedding_dim`,
`H * hd` = `latent_dim`, `F` = `ffn_dim`, `V` = `vocab_size`). -/
structure PersonalityModelWeights (D H hd F V : ℕ) where
  input_projection_w : Fin (H * hd) → Fin D → ℝ
  input_projection_b : Fin (H * hd) → ℝ
  encoder_layers : List (EncoderLayerWeights H hd F)
  projection_w : Fin V → Fin (H * hd) → ℝ
  output_bias : Fin V → ℝ

/-- `PersonalityModel.forward` on one sample. -/
noncomputable def personalityForward {D H hd F V : ℕ}
    (m : PersonalityModelWeights D H hd F V) (x : Fin D → ℝ) : Fin V → ℝ :=
  let h0 := linearMap m.input_projection_w m.input_projection_b x
  let hN := m.encoder_layers.foldl (fun h l => encoderLayerForward l h) h0
  fun j => (∑ i, m.projection_w j i * hN i) + m.output_bias j

/-- All four attention-projection biases are zero. -/
def AttnWeights.BiasesZero {H hd : ℕ} (w : AttnWeights H hd) : Prop :=
  (∀ i, w.q_proj_b i = 0) ∧ (∀ i, w.k_proj_b i = 0) ∧
    (∀ i, w.v_proj_b i = 0) ∧ (∀ i, w.out_proj_b i = 0)

/-- The bias set named by claim C7 for an encoder layer: the attention
projections and the feed-forward layers (the LayerNorm biases are NOT in
this set). -/
def EncoderLayerWeights.ListedBiasesZero {H hd F : ℕ}
    (w : EncoderLayerWeights H hd F) : Prop :=
  w.attn.BiasesZero ∧ (∀ i, w.ffn0_b i = 0) ∧ (∀ i, w.ffn3_b i = 0)

/-- All biases of an encoder layer, including the LayerNorm ones. -/
def EncoderLayerWeights.AllBiasesZero {H hd F : ℕ}
    (w : EncoderLayerWeights H hd F) : Prop :=
  w.ListedBiasesZero ∧ (∀ i, w.norm1_b i = 0) ∧ (∀ i, w.norm2_b i = 0)

/-- A concrete one-unit model (`D = H = hd = F = V = 1`, all weights 1):
input-projection, attention and feed-forward biases are all zero, but the
first LayerNorm bias is 1. -/
noncomputable def c7Model : PersonalityModelWeights 1 1 1 1 1 where
  input_projection_w := fun _ _ => 1
  input_projection_b := fun _ => 0
  encoder_layers :=
    [{ norm1_w := fun _ => 1
       norm1_b := fun _ => 1
       attn :=
        { q_proj_w := fun _ _ => 1, q_proj_b := fun _ => 0
          k_proj_w := fun _ _ => 1, k_proj_b := fun _ => 0
          v_proj_w := fun _ _ => 1, v_proj_b := fun _ => 0
          out_proj_w := fun _ _ => 1, out_proj_b := fun _ => 0 }
       norm2_w := fun _ => 1
       norm2_b := fun _ => 0
       ffn0_w := fun _ _ => 1, ffn0_b := fun _ => 0
       ffn3_w := fun _ _ => 1, ffn3_b := fun _ => 0 }]
  projection_w := fun _ _ => 1
  output_bias := fun _ => 0

/-- A concrete one-unit model with ALL biases zero (LayerNorm ones
included) and all weights 1, used to witness the amended claim C7. -/
noncomputable def c7ZeroModel : PersonalityModelWeights 1 1 1 1 1 where
  input_projection_w := fun _ _ => 1
  input_projection_b := fun _ => 0
  encoder_layers :=
    [{ norm1_w := fun _ => 1
       norm1_b := fun _ => 0
       attn :=
        { q_proj_w := fun _ _ => 1, q_proj_b := fun _ => 0
          k_proj_w := fun _ _ => 1, k_proj_b := fun _ => 0
          v_proj_w := fun _ _ => 1, v_proj_b := fun _ => 0
          out_proj_w := fun _ _ => 1, out_proj_b := fun _ => 0 }
       norm2_w := fun _ => 1
       norm2_b := fun _ => 0
       ffn0_w := fun _ _ => 1, ffn0_b := fun _ => 0
       ffn3_w := fun _ _ => 1, ffn3_b := fun _ => 0 }]
  projection_w := fun _ _ => 1
  output_bias := fun _ => 0

/- ═══════ Section E: export environment validation (src/export.py) ═══════════
`export_to_coreml` calls `_validate_coreml_environment()` first, then
creates the output directory, loads the checkpoint (aborting on key
mismatch), then exports the two artifacts (each: remove previous package
if present, write new package).  We record the file-system operations
touching the output directory in order. -/

/-- Host environment as probed by `_validate_coreml_environment`. -/
structure ExportEnv where
  system : String
  nativeLibLoads : Bool

/-- Embedding of `_validate_coreml_environment`: error when the platform is
not `Darwin` or the coremltools native extension fails to import.  (The
trailing torch-version comparison only prints a warning.) -/
def _validate_coreml_environment (env : ExportEnv) : Except String Unit :=
  if env.system ≠ "Darwin" then
    .error "Core ML export requires macOS"
  else if ¬ env.nativeLibLoads then
    .error "coremltools native extensions are unavailable"
  else .ok ()

/-- A file-system operation of the export in the output directory. -/
inductive ExportFsOp
  | mkdirOutputDir
  | removeArtifact (package_name : String)
  | writeArtifact (package_name : String)
deriving DecidableEq

/-- Embedding of `export_to_coreml`: the ordered file-system operations
performed in the output directory, together with the result. -/
def export_to_coreml (env : ExportEnv) (checkpointMatches : Bool)
    (package_name head_package_name : String) :
    List ExportFsOp × Except String (String × String) :=
  match _validate_coreml_environment env with
  | .error e => ([], .error e)
  | .ok () =>
    if ¬ checkpointMatches then
      ([.mkdirOutputDir],
       .error "Checkpoint does not match current architecture")
    else
      ([.mkdirOutputDir,
        .removeArtifact package_name, .writeArtifact package_name,
        .removeArtifact head_package_name, .writeArtifact head_package_name],
       .ok (package_name, head_package_name))

/- ═══════ Section F: token metadata round trip (src/export.py) ═══════════════
`_export_full_model` stores
`user_defined_metadata["personality_tokens"] = ",".join(TOKENS)` and
`inspect_mlpackage` reads it back with `.split(",")`. -/

/-- Python `s.split(sep)` for a single-character separator, over the
character list: splits at every occurrence, `"".split(",") = [""]`. -/
def splitOnCharList (c : Char) : List Char → List (List Char)
  | [] => [[]]
  | x :: xs =>
    let r := splitOnCharList c xs
    if x = c then [] :: r else (x :: r.headD []) :: r.tail

/-- `",".join(TOKENS)` as written into
`user_defined_metadata["personality_tokens"]`. -/
def tokensMetadataValue (tokens : List String) : String :=
  String.mk (intercalateSep [','] (tokens.map String.data))

/-- `meta["personality_tokens"].split(",")` as read back by
`inspect_mlpackage`. -/
def parseTokensMetadata (s : String) : List String :=
  (splitOnCharList ',' s.data).map String.mk

/- ═══════ Section G: cache-hit truncation (PersonalityDataset.__init__) ══════ -/

/-- Embedding of the cache-hit branch of `PersonalityDataset.__init__`:
`self.embeddings, self.targets = cached`, then, if
`len(self.embeddings) > max_samples`, truncate BOTH with
`[:max_samples]`. -/
def datasetFromCacheHit (embeddings targets : List (List ℝ))
    (max_samples : ℕ) : List (List ℝ) × List (List ℝ) :=
  if embeddings.length > max_samples then
    (embeddings.take max_samples, targets.take max_samples)
  else (embeddings, targets)

/-- `PersonalityDataset.__len__` = `len(self.embeddings)`. -/
def datasetLen (d : List (List ℝ) × List (List ℝ)) : ℕ := d.1.length

/- ═══════════════════════════════ Theorems ══════════════════════════════════ -/

theorem compute_soft_targets_apply {n v d : ℕ}
    (text_embeddings : Fin n → Fin d → ℝ) (token_embeddings : Fin v → Fin d → ℝ)
    (T : ℝ) (i : Fin n) (j : Fin v) :
    compute_soft_targets text_embeddings token_embeddings T i j =
      Real.exp ((∑ k, text_embeddings i k * token_embeddings j k) / T) /
        ∑ jp, Real.exp ((∑ k, text_embeddings i k * token_embeddings jp k) / T) := rfl

/-- Claim C1: for every temperature `T > 0` and every input batch of text
embeddings and token-basis embeddings, every row of the matrix returned by
`compute_soft_targets` is a valid probability distribution: all entries are
non-negative and each row sums to 1. -/
theorem compute_soft_targets_rows_are_distributions {n v d : ℕ}
    (text_embeddings : Fin n → Fin d → ℝ) (token_embeddings : Fin v → Fin d → ℝ)
    (T : ℝ) (hT : 0 < T) (hv : 0 < v) (i : Fin n) :
    (∀ j, 0 ≤ compute_soft_targets text_embeddings token_embeddings T i j) ∧
      ∑ j, compute_soft_targets text_embeddings token_embeddings T i j = 1 := by
  have hne : (Finset.univ : Finset (Fin v)).Nonempty := by
    have : Nonempty (Fin v) := Fin.pos_iff_nonempty.mp hv
    exact Finset.univ_nonempty
  have hS : 0 < ∑ jp, Real.exp ((∑ k, text_embeddings i k * token_embeddings jp k) / T) :=
    Finset.sum_pos (fun j _ => Real.exp_pos _) hne
  constructor
  · intro j
    rw [compute_soft_targets_apply]
    exact div_nonneg (Real.exp_pos _).le hS.le
  · simp only [compute_soft_targets_apply]
    rw [← Finset.sum_div, div_self (ne_of_gt hS)]

/-- Witness for C1 at a concrete input (one sample, one token, `T = 1`). -/
theorem compute_soft_targets_rows_are_distributions_witness :
    (∀ j, 0 ≤ compute_soft_targets (fun (_ : Fin 1) (_ : Fin 1) => (1 : ℝ))
        (fun (_ : Fin 1) (_ : Fin 1) => (1 : ℝ)) 1 0 j) ∧
      ∑ j, compute_soft_targets (fun (_ : Fin 1) (_ : Fin 1) => (1 : ℝ))
        (fun (_ : Fin 1) (_ : Fin 1) => (1 : ℝ)) 1 0 j = 1 :=
  compute_soft_targets_rows_are_distributions _ _ 1 one_pos Nat.one_pos 0

theorem le_rowMax {v : ℕ} [NeZero v] (row : Fin v → ℝ) (j : Fin v) :
    row j ≤ rowMax row :=
  Finset.le_sup' row (Finset.mem_univ j)

/-- Claim C2 (code evaluated at the failing input): `compute_soft_targets`
performs no validation of `temperature`.  Called with `temperature = 0` it
does not fail: the division by zero is carried out and a full matrix is
returned (here, with the real-number convention `x / 0 = 0`, the uniform
distribution; with IEEE floats, a tensor of `±inf`/`nan` — in neither case
is an error raised, contradicting the spec's required rejection). -/
theorem compute_soft_targets_zero_temperature_returns_value :
    compute_soft_targets (fun (_ : Fin 1) (_ : Fin 1) => (1 : ℝ))
      (fun (_ : Fin 2) (_ : Fin 1) => (1 : ℝ)) 0 = fun _ _ => 1 / 2 := by
  funext i j
  rw [compute_soft_targets_apply]
  simp [Fin.sum_univ_two]

/-- Claim C3: for every fixed similarity input and temperatures
`0 < T₁ < T₂`, the maximum entry of each output row at temperature `T₁` is
at least the maximum entry of the corresponding row at temperature `T₂`. -/
theorem compute_soft_targets_lower_temperature_concentrates {n v d : ℕ} [NeZero v]
    (text_embeddings : Fin n → Fin d → ℝ) (token_embeddings : Fin v → Fin d → ℝ)
    (T₁ T₂ : ℝ) (hT₁ : 0 < T₁) (h12 : T₁ < T₂) (i : Fin n) :
    rowMax (compute_soft_targets text_embeddings token_embeddings T₂ i) ≤
      rowMax (compute_soft_targets text_embeddings token_embeddings T₁ i) := by
  have hT₂ : 0 < T₂ := hT₁.trans h12
  set s : Fin v → ℝ := fun j => ∑ k, text_embeddings i k * token_embeddings j k with hs
  have hne : (Finset.univ : Finset (Fin v)).Nonempty := Finset.univ_nonempty
  have hS : ∀ T : ℝ, 0 < ∑ jp, Real.exp (s jp / T) :=
    fun T => Finset.sum_pos (fun j _ => Real.exp_pos _) hne
  have hmono : ∀ T : ℝ, 0 < T →
      Monotone (fun x : ℝ => Real.exp (x / T) / ∑ jp, Real.exp (s jp / T)) := by
    intro T hT x y hxy
    have h1 : Real.exp (x / T) ≤ Real.exp (y / T) :=
      Real.exp_le_exp.mpr (div_le_div_of_nonneg_right hxy hT.le)
    exact div_le_div_of_nonneg_right h1 (hS T).le
  -- the row maximum at temperature T is the monotone softmax map applied to
  -- the row maximum of the similarities
  have key : ∀ T : ℝ, 0 < T →
      rowMax (compute_soft_targets text_embeddings token_embeddings T i) =
        Real.exp (rowMax s / T) / ∑ jp, Real.exp (s jp / T) := by
    intro T hT
    have hcomp :
        (fun j => Real.exp (s j / T) / ∑ jp, Real.exp (s jp / T)) =
          (fun x : ℝ => Real.exp (x / T) / ∑ jp, Real.exp (s jp / T)) ∘ s := rfl
    calc rowMax (compute_soft_targets text_embeddings token_embeddings T i)
        = Finset.univ.sup' Finset.univ_nonempty
            ((fun x : ℝ => Real.exp (x / T) / ∑ jp, Real.exp (s jp / T)) ∘ s) := by
          rw [rowMax]; rfl
      _ = Real.exp (Finset.univ.sup' Finset.univ_nonempty s / T) /
            ∑ jp, Real.exp (s jp / T) := by
          rw [← Finset.comp_sup'_eq_sup'_comp Finset.univ_nonempty
            (fun x : ℝ => Real.exp (x / T) / ∑ jp, Real.exp (s jp / T))
            (fun x y => (hmono T hT).map_max)]
      _ = Real.exp (rowMax s / T) / ∑ jp, Real.exp (s jp / T) := by rw [rowMax]
  rw [key T₁ hT₁, key T₂ hT₂]
  have hM : ∀ j, s j ≤ rowMax s := fun j => le_rowMax s j
  have h1ne : T₁ ≠ 0 := ne_of_gt hT₁
  have h2ne : T₂ ≠ 0 := ne_of_gt hT₂
  rw [div_le_div_iff (hS T₂) (hS T₁), Finset.mul_sum, Finset.mul_sum]
  apply Finset.sum_le_sum
  intro j _
  rw [← Real.exp_add, ← Real.exp_add]
  apply Real.exp_le_exp.mpr
  rw [div_add_div _ _ h2ne h1ne, div_add_div _ _ h1ne h2ne,
    div_le_div_iff (mul_pos hT₂ hT₁) (mul_pos hT₁ hT₂)]
  nlinarith [mul_nonneg (mul_pos hT₁ hT₂).le
    (mul_nonneg (sub_nonneg.2 (hM j)) (sub_nonneg.2 h12.le))]

/-- Witness for C3 at a concrete input (`T₁ = 1 < T₂ = 2`). -/
theorem compute_soft_targets_lower_temperature_concentrates_witness :
    rowMax (compute_soft_targets (fun (_ : Fin 1) (_ : Fin 1) => (1 : ℝ))
        (fun (_ : Fin 1) (_ : Fin 1) => (1 : ℝ)) 2 0) ≤
      rowMax (compute_soft_targets (fun (_ : Fin 1) (_ : Fin 1) => (1 : ℝ))
        (fun (_ : Fin 1) (_ : Fin 1) => (1 : ℝ)) 1 0) :=
  compute_soft_targets_lower_temperature_concentrates _ _ 1 2 one_pos one_lt_two 0

theorem token_hash_factorization (tokens : List String) :
    _token_hash tokens =
      hashOfKey (md5KeyBytes (utf8Encode (jsonDumpsTokens tokens))) := rfl

/-- The truncated hash takes values in a finite type (four bytes), while
there are infinitely many token lists, so two distinct token lists share a
truncated hash. -/
theorem exists_token_hash_collision :
    ∃ t1 t2 : List String, t1 ≠ t2 ∧ _token_hash t1 = _token_hash t2 := by
  obtain ⟨m, n, hmn, heq⟩ :=
    Finite.exists_ne_map_eq_of_infinite
      (fun n : ℕ => md5KeyBytes (utf8Encode (jsonDumpsTokens (List.replicate n "a"))))
  refine ⟨List.replicate m "a", List.replicate n "a", ?_, ?_⟩
  · intro h
    exact hmn (by simpa using congrArg List.length h)
  · rw [token_hash_factorization, token_hash_factorization, heq]

/-- Claim C4 counterexample: it is NOT true that every mutation of the
vocabulary (with sample count and backend identity unchanged) causes a
cache miss.  The stored hash is an MD5 digest truncated to 8 hex
characters (32 bits), so by pigeonhole two distinct vocabularies share a
hash, and after mutating one into the other, `_load_cache` still returns
the stored record. -/
theorem cache_load_after_mutation_not_always_miss :
    ¬ ∀ (stored current : List String) (e t : List (List ℝ)) (name : String),
        current ≠ stored →
        _load_cache (_save_cache emptyCache e t name stored) name current = none := by
  intro hclaim
  obtain ⟨t1, t2, hne, hhash⟩ := exists_token_hash_collision
  have hload : _load_cache (_save_cache emptyCache [[0]] [[0]] "backend" t1)
      "backend" t2 = some ([[0]], [[0]]) := by
    simp [_load_cache, _save_cache, saveAfterSteps, saveSteps, writeEmbeddingsFile,
      writeTargetsFile, writeMetadataFile, emptyCache, hhash]
  have hnone := hclaim t1 t2 [[0]] [[0]] "backend" (fun h => hne h.symm)
  rw [hnone] at hload
  exact Option.noConfusion hload

/-- Claim C4 (amended): a subsequent cache load returns `None` whenever the
truncated MD5 hash of the current token list differs from the stored hash —
in particular for every vocabulary mutation that changes the truncated
hash — even though the stored sample count and backend identity are
unchanged.  (The unamended claim fails only because distinct vocabularies
are not guaranteed distinct 32-bit truncated hashes; see the
counterexample.) -/
theorem cache_load_misses_when_token_hash_differs
    (cache₀ : CacheState) (stored current : List String)
    (e t : List (List ℝ)) (name : String)
    (hh : _token_hash current ≠ _token_hash stored) :
    _load_cache (_save_cache cache₀ e t name stored) name current = none := by
  simp [_load_cache, _save_cache, saveAfterSteps, saveSteps, writeEmbeddingsFile,
    writeTargetsFile, writeMetadataFile, hh.symm]

set_option maxRecDepth 100000 in
/-- Witness for the amended C4: mutating the single-token vocabulary `["a"]`
to `["b"]` changes the truncated hash (`4c96bbc0` to `d1a28528`, checked by
kernel computation of both MD5 digests), so the load misses. -/
theorem cache_load_misses_when_token_hash_differs_witness :
    _load_cache (_save_cache emptyCache [[0]] [[0]] "backend" ["a"])
      "backend" ["b"] = none :=
  cache_load_misses_when_token_hash_differs emptyCache ["a"] ["b"] [[0]] [[0]]
    "backend" (by decide)

/-- Claim C5 counterexample: rebuilding over a previously valid cache for
the same model name and token list (the `force_rebuild=True` path of
`PersonalityDataset.__init__`) and crashing after the first write
(`embeddings.pt`) leaves the old metadata — which still validates against
the current identity — together with the new embeddings and the old
targets.  `_load_cache` accepts this mixed mid-write record instead of
returning `none`, so a crash mid-write CAN leave a record that load
accepts as valid. -/
theorem crash_mid_rebuild_leaves_acceptable_record :
    _load_cache
      (saveAfterSteps 1 (_save_cache emptyCache [[0]] [[0]] "backend" ["a"])
        [[1]] [[1]] "backend" ["a"])
      "backend" ["a"] = some ([[1]], [[0]]) := by
  simp [_load_cache, _save_cache, saveAfterSteps, saveSteps, writeEmbeddingsFile,
    writeTargetsFile, writeMetadataFile, emptyCache]

/-- Claim C5 (amended): `_save_cache` performs its writes in the order
embeddings, targets, metadata — so after any crash point `k ≤ 2` the
metadata file is untouched — and whenever the prior directory holds no
metadata record validating against the current model name and token list,
a crash at any mid-write point leaves a state on which `_load_cache`
misses.  (Crash safety fails only when rebuilding over a still-valid
matching record; see the counterexample.) -/
theorem save_cache_metadata_last_crash_safety
    (prior : CacheState) (e t : List (List ℝ)) (name : String)
    (tokens : List String) (k : ℕ) (hk : k ≤ 2) :
    (saveAfterSteps k prior e t name tokens).metadata = prior.metadata ∧
      (metadataMatches prior.metadata name tokens = false →
        _load_cache (saveAfterSteps k prior e t name tokens) name tokens
          = none) := by
  have main : ∀ st : CacheState, st.metadata = prior.metadata →
      (metadataMatches prior.metadata name tokens = false →
        _load_cache st name tokens = none) := by
    intro st hst hmm
    rw [_load_cache, hst]
    cases hmeta : prior.metadata with
    | none => rfl
    | some meta =>
      rw [hmeta] at hmm
      simp only [metadataMatches, Bool.and_eq_false_iff, beq_eq_false_iff_ne,
        ne_eq] at hmm
      rcases hmm with h | h
      · simp [h]
      · by_cases h1 : meta.model_name = name
        · simp [h1, h]
        · simp [h1]
  interval_cases k
  · exact ⟨rfl, main _ rfl⟩
  · exact ⟨rfl, main _ rfl⟩
  · exact ⟨rfl, main _ rfl⟩

/-- Witness for the amended C5: fresh directory, crash after one write. -/
theorem save_cache_metadata_last_crash_safety_witness :
    (saveAfterSteps 1 emptyCache [[0]] [[0]] "backend" ["a"]).metadata
        = emptyCache.metadata ∧
      (metadataMatches emptyCache.metadata "backend" ["a"] = false →
        _load_cache (saveAfterSteps 1 emptyCache [[0]] [[0]] "backend" ["a"])
          "backend" ["a"] = none) :=
  save_cache_metadata_last_crash_safety emptyCache [[0]] [[0]] "backend" ["a"] 1
    (by norm_num)

theorem projection_w_not_backbone (numLayers : ℕ) :
    ParamId.projection_w ∉ backboneParams numLayers := by
  simp [backboneParams, encLayerParams]

theorem output_bias_not_backbone (numLayers : ℕ) :
    ParamId.output_bias ∉ backboneParams numLayers := by
  simp [backboneParams, encLayerParams]

/-- Claim C6: after `freeze_backbone()`, every parameter of the input
projection and of every encoder layer has `requires_grad = False`, and
`trainable_parameters()` returns exactly the final projection weight and
the separate output bias — no backbone parameter — each with
`requires_grad = True`.  (The head flags are hypotheses because torch
initialises them `True` and no repository code ever disables them; see the
witness, instantiated at a freshly constructed model.) -/
theorem freeze_backbone_trainable_parameters_exact
    (m : PersonalityModelState)
    (hw : m.flags .projection_w = true) (hb : m.flags .output_bias = true) :
    (∀ id ∈ backboneParams m.numLayers, (freeze_backbone m).flags id = false) ∧
      trainable_parameters (freeze_backbone m) =
        [("projection_weight", [.projection_w]), ("output_bias", [.output_bias])] ∧
      ∀ g ∈ trainable_parameters (freeze_backbone m), ∀ id ∈ g.2,
        id ∉ backboneParams m.numLayers ∧ (freeze_backbone m).flags id = true := by
  refine ⟨?_, rfl, ?_⟩
  · intro id hid
    simp [freeze_backbone, hid]
  · intro g hg id hid
    simp only [trainable_parameters, List.mem_cons, List.not_mem_nil,
      or_false] at hg
    rcases hg with hg | hg
    · subst hg
      simp only [List.mem_cons, List.not_mem_nil, or_false] at hid
      subst hid
      refine ⟨projection_w_not_backbone _, ?_⟩
      simp [freeze_backbone, projection_w_not_backbone m.numLayers, hw]
    · subst hg
      simp only [List.mem_cons, List.not_mem_nil, or_false] at hid
      subst hid
      refine ⟨output_bias_not_backbone _, ?_⟩
      simp [freeze_backbone, output_bias_not_backbone m.numLayers, hb]

/-- Witness for C6 at a freshly constructed two-layer model. -/
theorem freeze_backbone_trainable_parameters_exact_witness :
    (∀ id ∈ backboneParams (PersonalityModelState.init 2).numLayers,
        (freeze_backbone (PersonalityModelState.init 2)).flags id = false) ∧
      trainable_parameters (freeze_backbone (PersonalityModelState.init 2)) =
        [("projection_weight", [.projection_w]), ("output_bias", [.output_bias])] ∧
      ∀ g ∈ trainable_parameters (freeze_backbone (PersonalityModelState.init 2)),
        ∀ id ∈ g.2,
          id ∉ backboneParams (PersonalityModelState.init 2).numLayers ∧
            (freeze_backbone (PersonalityModelState.init 2)).flags id = true :=
  freeze_backbone_trainable_parameters_exact (PersonalityModelState.init 2) rfl rfl

theorem linearMap_zero {m n : ℕ} (w : Fin m → Fin n → ℝ) (b : Fin m → ℝ)
    (hb : ∀ i, b i = 0) : linearMap w b (fun _ => 0) = fun _ => 0 := by
  funext i
  simp [linearMap, hb]

theorem layerNorm_zero {n : ℕ} (γ β : Fin n → ℝ) (hβ : ∀ i, β i = 0) :
    layerNorm γ β (fun _ => 0) = fun _ => 0 := by
  funext i
  simp [layerNorm, hβ]

theorem gelu_zero : gelu 0 = 0 := by
  simp [gelu]

theorem attnForward_zero {H hd : ℕ} (w : AttnWeights H hd)
    (hz : w.BiasesZero) : attnForward w (fun _ => 0) = fun _ => 0 := by
  obtain ⟨hq, hk, hv, ho⟩ := hz
  funext i
  simp [attnForward, linearMap, hv, ho]

theorem encoderLayerForward_zero {H hd F : ℕ} (w : EncoderLayerWeights H hd F)
    (hz : w.AllBiasesZero) : encoderLayerForward w (fun _ => 0) = fun _ => 0 := by
  obtain ⟨⟨hattn, hffn0, hffn3⟩, hn1, hn2⟩ := hz
  have h1 : layerNorm w.norm1_w w.norm1_b (fun _ => 0) = fun _ => 0 :=
    layerNorm_zero _ _ hn1
  have h2 : attnForward w.attn (fun _ => 0) = fun _ => 0 :=
    attnForward_zero _ hattn
  funext i
  simp [encoderLayerForward, h1, h2, layerNorm_zero _ _ hn2,
    linearMap_zero _ _ hffn0, gelu_zero, linearMap_zero _ _ hffn3]

theorem foldl_encoder_zero {H hd F : ℕ}
    (layers : List (EncoderLayerWeights H hd F))
    (hl : ∀ l ∈ layers, l.AllBiasesZero) :
    layers.foldl (fun h l => encoderLayerForward l h) (fun _ => 0)
      = fun _ => 0 := by
  induction layers with
  | nil => rfl
  | cons l ls ih =>
    rw [List.foldl_cons, encoderLayerForward_zero l (hl l (by simp))]
    exact ih (fun x hx => hl x (by simp [hx]))

/-- Claim C7 (amended): for every `PersonalityModel` whose biases in the
input projection, attention projections, feed-forward layers AND layer
normalisations are all zero, the forward pass maps the all-zero input to
exactly the output bias vector.  (The unamended claim omits the LayerNorm
biases from the zero set; see the counterexample.) -/
theorem forward_zero_input_eq_output_bias {D H hd F V : ℕ}
    (m : PersonalityModelWeights D H hd F V)
    (hinp : ∀ i, m.input_projection_b i = 0)
    (hlayers : ∀ l ∈ m.encoder_layers, l.AllBiasesZero) :
    personalityForward m (fun _ => 0) = m.output_bias := by
  funext j
  simp [personalityForward, linearMap_zero _ _ hinp,
    foldl_encoder_zero _ hlayers]

theorem exp_div_exp_self (y : ℝ) : Real.exp y / Real.exp y = 1 :=
  div_self (Real.exp_ne_zero y)

theorem c7_forward_value :
    personalityForward c7Model (fun _ => 0) = fun _ => 1 := by
  funext j
  simp [personalityForward, c7Model, encoderLayerForward, attnForward,
    linearMap, layerNorm, Finset.sum_const, Finset.card_univ,
    Fintype.card_fin, exp_div_exp_self, gelu_zero]

/-- Claim C7 counterexample: `c7Model` has zero biases in the input
projection, the attention projections and the feed-forward layers — the
claim's full hypothesis set — yet its first LayerNorm bias is 1 and the
forward pass maps the all-zero input to the constant-1 vector instead of
the (zero) output bias vector. -/
theorem forward_zero_input_ne_output_bias_counterexample :
    (∀ i, c7Model.input_projection_b i = 0) ∧
      (∀ l ∈ c7Model.encoder_layers, l.ListedBiasesZero) ∧
      personalityForward c7Model (fun _ => 0) ≠ c7Model.output_bias := by
  refine ⟨fun i => rfl, ?_, ?_⟩
  · intro l hl
    simp only [c7Model, List.mem_cons, List.not_mem_nil, or_false] at hl
    subst hl
    exact ⟨⟨fun i => rfl, fun i => rfl, fun i => rfl, fun i => rfl⟩,
      fun i => rfl, fun i => rfl⟩
  · rw [c7_forward_value]
    intro heq
    have h := congrFun heq 0
    simp [c7Model] at h

/-- Witness for the amended C7 at a concrete all-zero-bias model. -/
theorem forward_zero_input_eq_output_bias_witness :
    personalityForward c7ZeroModel (fun _ => 0) = c7ZeroModel.output_bias :=
  forward_zero_input_eq_output_bias c7ZeroModel (fun i => rfl) (by
    intro l hl
    simp only [c7ZeroModel, List.mem_cons, List.not_mem_nil, or_false] at hl
    subst hl
    exact ⟨⟨⟨fun i => rfl, fun i => rfl, fun i => rfl, fun i => rfl⟩,
      fun i => rfl, fun i => rfl⟩, fun i => rfl, fun i => rfl⟩)

/-- Claim C8: on an unsupported host — the platform is not macOS
(`Darwin`) or the coremltools native library is unavailable — the
environment validation fails and `export_to_coreml` returns an error
having performed NO file-system operation in the output directory (the
operation trace is empty; in particular the directory is not created). -/
theorem export_unsupported_host_no_file_ops (env : ExportEnv)
    (checkpointMatches : Bool) (package_name head_package_name : String)
    (h : env.system ≠ "Darwin" ∨ env.nativeLibLoads = false) :
    (export_to_coreml env checkpointMatches package_name head_package_name).1
        = [] ∧
      ∃ e, (export_to_coreml env checkpointMatches package_name
        head_package_name).2 = .error e := by
  rcases h with h | h
  · simp [export_to_coreml, _validate_coreml_environment, h]
  · by_cases hd : env.system = "Darwin"
    · simp [export_to_coreml, _validate_coreml_environment, hd, h]
    · simp [export_to_coreml, _validate_coreml_environment, hd]

/-- Witness for C8 on a concrete Linux host without the native library. -/
theorem export_unsupported_host_no_file_ops_witness :
    (export_to_coreml ⟨"Linux", false⟩ true "full.mlpackage"
        "head.mlpackage").1 = [] ∧
      ∃ e, (export_to_coreml ⟨"Linux", false⟩ true "full.mlpackage"
        "head.mlpackage").2 = .error e :=
  export_unsupported_host_no_file_ops ⟨"Linux", false⟩ true "full.mlpackage"
    "head.mlpackage" (Or.inl (by decide))

theorem splitOnCharList_no_sep (c : Char) (l : List Char) (h : c ∉ l) :
    splitOnCharList c l = [l] := by
  induction l with
  | nil => rfl
  | cons x xs ih =>
    simp only [List.mem_cons, not_or] at h
    simp only [splitOnCharList, ih h.2]
    rw [if_neg (fun hxc => h.1 hxc.symm)]
    rfl

theorem splitOnCharList_append_cons (c : Char) (l1 l2 : List Char)
    (h : c ∉ l1) :
    splitOnCharList c (l1 ++ c :: l2) = l1 :: splitOnCharList c l2 := by
  induction l1 with
  | nil => simp [splitOnCharList]
  | cons x xs ih =>
    simp only [List.mem_cons, not_or] at h
    simp only [List.cons_append, splitOnCharList, List.append_eq, ih h.2]
    rw [if_neg (fun hxc => h.1 hxc.symm)]
    rfl

theorem split_intercalate_eq (c : Char) (ls : List (List Char))
    (hne : ls ≠ []) (hc : ∀ l ∈ ls, c ∉ l) :
    splitOnCharList c (intercalateSep [c] ls) = ls := by
  induction ls with
  | nil => exact absurd rfl hne
  | cons l ls ih =>
    cases ls with
    | nil => exact splitOnCharList_no_sep c l (hc l (by simp))
    | cons l2 ls2 =>
      have hstep : intercalateSep [c] (l :: l2 :: ls2)
          = l ++ c :: intercalateSep [c] (l2 :: ls2) := by
        simp [intercalateSep]
      rw [hstep, splitOnCharList_append_cons c l _ (hc l (by simp))]
      rw [ih (by simp) (fun x hx => hc x (by simp [hx]))]

/-- Claim C9 (amended): for every NONEMPTY token sequence whose tokens
contain no comma — which the canonical vocabulary is expected to satisfy —
the join of tokens into the metadata string followed by the split used on
re-load is the identity, string for string and position for position.
(For arbitrary sequences the unamended claim fails: a token containing a
comma is split apart on re-load; see the counterexample.) -/
theorem tokens_metadata_roundtrip (tokens : List String) (hne : tokens ≠ [])
    (hc : ∀ t ∈ tokens, ',' ∉ t.data) :
    parseTokensMetadata (tokensMetadataValue tokens) = tokens := by
  show (splitOnCharList ',' (intercalateSep [','] (tokens.map String.data))).map
      String.mk = tokens
  rw [split_intercalate_eq ',' (tokens.map String.data)
    (fun h => hne (List.map_eq_nil.mp h))
    (fun l hl => by
      obtain ⟨t, ht, rfl⟩ := List.mem_map.mp hl
      exact hc t ht)]
  rw [List.map_map]
  have hid : (String.mk ∘ String.data) = id := funext fun s => rfl
  rw [hid, List.map_id]

/-- Claim C9 counterexample: the token `"a,b"` is joined into the metadata
string `"a,b"` and split back into `["a", "b"]`, not `["a,b"]` — the
join/split pair is not the identity on every token sequence (and nothing
in the repository forbids commas in tokens). -/
theorem tokens_metadata_roundtrip_fails_on_comma :
    parseTokensMetadata (tokensMetadataValue ["a,b"]) ≠ ["a,b"] := by decide

/-- Witness for the amended C9 at a concrete comma-free token list. -/
theorem tokens_metadata_roundtrip_witness :
    parseTokensMetadata (tokensMetadataValue ["alpha", "beta"])
      = ["alpha", "beta"] :=
  tokens_metadata_roundtrip ["alpha", "beta"] (by decide) (by decide)

/-- Claim C10: on a cache hit whose record has consistent row counts and a
`max_samples` argument smaller than the cached sample count,
`PersonalityDataset.__init__` truncates both the embeddings and the
targets to the first `max_samples` rows, so the dataset length does not
exceed `max_samples` and embeddings and targets have the same number of
rows. -/
theorem dataset_cache_hit_truncation (embeddings targets : List (List ℝ))
    (max_samples : ℕ) (hlen : embeddings.length = targets.length)
    (hlt : max_samples < embeddings.length) :
    datasetFromCacheHit embeddings targets max_samples
        = (embeddings.take max_samples, targets.take max_samples) ∧
      datasetLen (datasetFromCacheHit embeddings targets max_samples)
        = max_samples ∧
      (datasetFromCacheHit embeddings targets max_samples).1.length
        = (datasetFromCacheHit embeddings targets max_samples).2.length := by
  have hgt : embeddings.length > max_samples := hlt
  refine ⟨by simp [datasetFromCacheHit, hgt], ?_, ?_⟩
  · simp only [datasetLen, datasetFromCacheHit, if_pos hgt,
      List.length_take]
    omega
  · simp only [datasetFromCacheHit, if_pos hgt, List.length_take]
    omega

/-- Witness for C10 at a concrete two-row cached record, `max_samples = 1`. -/
theorem dataset_cache_hit_truncation_witness :
    datasetFromCacheHit [[0], [1]] [[2], [3]] 1
        = ([[0], [1]].take 1, [[2], [3]].take 1) ∧
      datasetLen (datasetFromCacheHit [[0], [1]] [[2], [3]] 1) = 1 ∧
      (datasetFromCacheHit [[0], [1]] [[2], [3]] 1).1.length
        = (datasetFromCacheHit [[0], [1]] [[2], [3]] 1).2.length :=
  dataset_cache_hit_truncation [[0], [1]] [[2], [3]] 1 rfl (by norm_num)

theorem init_head_flags_true (n : ℕ) :
    (PersonalityModelState.init n).flags .projection_w = true ∧
      (PersonalityModelState.init n).flags .output_bias = true :=
  ⟨rfl, rfl⟩

theorem freeze_backbone_head_flags (m : PersonalityModelState) :
    (freeze_backbone m).flags .projection_w = m.flags .projection_w ∧
      (freeze_backbone m).flags .output_bias = m.flags .output_bias := by
  constructor <;>
    simp [freeze_backbone, projection_w_not_backbone m.numLayers,
      output_bias_not_backbone m.numLayers]
